import Mathlib

/-!
Shallow embedding of the original logic of the arXiv tool scripts:
the feed parser and the three tools (`fetch_arxiv_papers`,
`get_arxiv_abstract`, `save_md_to_file`) in their server variant
(`4_mcp_server.py`), the plain-script save (`3_gemini_agent_with_tools_v2.py`),
and the two interactive agent loops (`6_mcp_gemini_agent.py`,
`9_mcp_docker_gemini_agent.py`).

Strings are modelled as `List Char` (user-supplied text, filenames, paths,
feed fields) or Lean `String` (envelope status/message text and exception
payloads).  Network and filesystem behaviour is passed in explicitly: a
network fetch-and-parse is an `Except String (List Entry)` value, a
filesystem primitive is an `Except String Unit`, and the side effects a call
performs are returned as an explicit `Effect` trace.
-/

namespace ArxivTools

/-- The reserved filename characters of `re.sub(r'[<>:"/\\|?*]', '-', filename)`. -/
def reservedChar (c : Char) : Bool :=
  c = '<' || c = '>' || c = ':' || c = '"' || c = '/' || c = '\\' ||
  c = '|' || c = '?' || c = '*'

/-- One character of the `re.sub` replacement: a reserved character becomes `'-'`. -/
def replaceReserved (c : Char) : Char :=
  if reservedChar c then '-' else c

/-- The `.md` suffix appended by the save tools. -/
def mdSuffix : List Char := ['.', 'm', 'd']

/-- The filename sanitization performed by both save variants:
`filename = re.sub(r'[<>:"/\\|?*]', '-', filename)` followed by
`if not filename.endswith('.md'): filename += '.md'`. -/
def sanitize (s : List Char) : List Char :=
  if mdSuffix <:+ s.map replaceReserved then s.map replaceReserved
  else s.map replaceReserved ++ mdSuffix

theorem replaceReserved_idem (c : Char) :
    replaceReserved (replaceReserved c) = replaceReserved c := by
  by_cases h : reservedChar c <;> simp [replaceReserved, h]

theorem reservedChar_replaceReserved (c : Char) :
    reservedChar (replaceReserved c) = false := by
  cases hb : reservedChar c
  · simp [replaceReserved, hb]
  · simp only [replaceReserved, hb, if_true]
    decide

theorem map_replaceReserved_idem (s : List Char) :
    (s.map replaceReserved).map replaceReserved = s.map replaceReserved := by
  rw [List.map_map]
  apply List.map_congr_left
  intro a _
  exact replaceReserved_idem a

theorem map_replaceReserved_mdSuffix :
    mdSuffix.map replaceReserved = mdSuffix := by decide

theorem sanitize_endsWith_md (s : List Char) : mdSuffix <:+ sanitize s := by
  unfold sanitize
  split
  · assumption
  · exact List.suffix_append _ _

theorem map_replaceReserved_sanitize (s : List Char) :
    (sanitize s).map replaceReserved = sanitize s := by
  unfold sanitize
  split
  · exact map_replaceReserved_idem s
  · rw [List.map_append, map_replaceReserved_idem, map_replaceReserved_mdSuffix]

theorem sanitize_idem (s : List Char) : sanitize (sanitize s) = sanitize s := by
  conv_lhs => rw [sanitize]
  rw [map_replaceReserved_sanitize]
  exact if_pos (sanitize_endsWith_md s)

theorem sanitize_no_reserved (s : List Char) :
    ∀ c ∈ sanitize s, reservedChar c = false := by
  intro c hc
  unfold sanitize at hc
  have hmem : c ∈ s.map replaceReserved ∨ c ∈ mdSuffix := by
    split at hc
    · exact Or.inl hc
    · exact (List.mem_append.mp hc)
  rcases hmem with h | h
  · rcases List.mem_map.mp h with ⟨a, _, ha⟩
    rw [← ha]
    exact reservedChar_replaceReserved a
  · fin_cases h <;> decide

/-- Python `s.split("/")`: the list of fields of `s` between `'/'` separators.
`"".split("/") = [""]`, `"a/b".split("/") = ["a","b"]`, `"/".split("/") = ["",""]`. -/
def pySplitSlash (s : List Char) : List (List Char) :=
  s.foldr (fun c acc => if c = '/' then [] :: acc else (c :: acc.headD []) :: acc.tail) [[]]

/-- Python `s.split("/")[-1]`: the last field, i.e. the part of `s` after its
last `'/'` (all of `s` when it has no `'/'`). -/
def lastField (s : List Char) : List Char :=
  (pySplitSlash s).getLastD []

theorem pySplitSlash_cons (c : Char) (cs : List Char) :
    pySplitSlash (c :: cs) =
      if c = '/' then [] :: pySplitSlash cs
      else (c :: (pySplitSlash cs).headD []) :: (pySplitSlash cs).tail := rfl

theorem pySplitSlash_ne_nil (s : List Char) : pySplitSlash s ≠ [] := by
  cases s with
  | nil => simp [pySplitSlash]
  | cons c cs =>
      rw [pySplitSlash_cons]
      split <;> simp

theorem pySplitSlash_of_no_slash (s : List Char) (h : '/' ∉ s) :
    pySplitSlash s = [s] := by
  induction s with
  | nil => rfl
  | cons c cs ih =>
      have hc : ¬ c = '/' := fun hc => h (hc ▸ List.mem_cons_self c cs)
      have hcs : '/' ∉ cs := fun hm => h (List.mem_cons_of_mem c hm)
      rw [pySplitSlash_cons, if_neg hc, ih hcs]
      rfl

theorem two_le_length_pySplitSlash (s : List Char) (h : '/' ∈ s) :
    2 ≤ (pySplitSlash s).length := by
  induction s with
  | nil => cases h
  | cons c cs ih =>
      rw [pySplitSlash_cons]
      by_cases hc : c = '/'
      · rw [if_pos hc]
        have h1 : 1 ≤ (pySplitSlash cs).length :=
          List.length_pos.mpr (pySplitSlash_ne_nil cs)
        simpa using h1
      · rw [if_neg hc]
        have hcs : '/' ∈ cs := by
          rcases List.mem_cons.mp h with h1 | h1
          · exact absurd h1.symm hc
          · exact h1
        have h2 := ih hcs
        have h3 : 1 ≤ (pySplitSlash cs).tail.length := by
          rw [List.length_tail]
          omega
        simpa using h3

theorem lastField_cons (c : Char) (cs : List Char) :
    lastField (c :: cs) =
      if c = '/' ∨ '/' ∈ cs then lastField cs else c :: cs := by
  by_cases hc : c = '/'
  · rw [if_pos (Or.inl hc)]
    unfold lastField
    rw [pySplitSlash_cons, if_pos hc]
    cases hps : pySplitSlash cs with
    | nil => exact absurd hps (pySplitSlash_ne_nil cs)
    | cons a t => simp [List.getLastD_cons]
  · by_cases hcs : '/' ∈ cs
    · rw [if_pos (Or.inr hcs)]
      unfold lastField
      rw [pySplitSlash_cons, if_neg hc]
      have h2 := two_le_length_pySplitSlash cs hcs
      cases hps : pySplitSlash cs with
      | nil => exact absurd hps (pySplitSlash_ne_nil cs)
      | cons a t =>
          cases t with
          | nil => rw [hps] at h2; simp at h2
          | cons b t2 => simp [hps, List.getLastD_cons]
    · have hor : ¬ (c = '/' ∨ '/' ∈ cs) := by
        intro h; rcases h with h | h
        · exact hc h
        · exact hcs h
      rw [if_neg hor]
      unfold lastField
      rw [pySplitSlash_of_no_slash (c :: cs) (by
        intro hm
        rcases List.mem_cons.mp hm with h1 | h1
        · exact hc h1.symm
        · exact hcs h1)]
      rfl

theorem lastField_no_slash (s : List Char) : '/' ∉ lastField s := by
  induction s with
  | nil => intro h; cases h
  | cons c cs ih =>
      rw [lastField_cons]
      by_cases hor : c = '/' ∨ '/' ∈ cs
      · rw [if_pos hor]; exact ih
      · rw [if_neg hor]
        intro hm
        rcases List.mem_cons.mp hm with h1 | h1
        · exact hor (Or.inl h1.symm)
        · exact hor (Or.inr h1)

theorem lastField_suffix (s : List Char) : lastField s <:+ s := by
  induction s with
  | nil => exact List.suffix_refl []
  | cons c cs ih =>
      rw [lastField_cons]
      by_cases hor : c = '/' ∨ '/' ∈ cs
      · rw [if_pos hor]
        exact ih.trans (List.suffix_cons c cs)
      · rw [if_neg hor]

theorem lastField_maximal (s : List Char) :
    ∀ t, t <:+ s → '/' ∉ t → t <:+ lastField s := by
  induction s with
  | nil =>
      intro t ht _
      rw [List.suffix_nil.mp ht]
      exact List.suffix_refl _
  | cons c cs ih =>
      intro t ht hnot
      rw [lastField_cons]
      by_cases hor : c = '/' ∨ '/' ∈ cs
      · rw [if_pos hor]
        rcases List.suffix_cons_iff.mp ht with h1 | h1
        · exfalso
          rcases hor with h | h
          · exact hnot (h1 ▸ (h ▸ List.mem_cons_self c cs))
          · exact hnot (h1 ▸ List.mem_cons_of_mem c h)
        · exact ih t h1 hnot
      · rw [if_neg hor]
        exact ht

/-- One `<link>` element of a feed entry: `l.get("type")` and `l.get("href")`
(`None` when the attribute is absent). -/
structure Link where
  linkType : Option (List Char)
  href : Option (List Char)
deriving DecidableEq

/-- One `<entry>` element of the parsed feed, holding exactly the pieces the
scripts read: `findtext("{*}id")`, `findtext("{*}title")`,
`findtext("{*}published")`, the `findtext("{*}name")` of each `<author>`,
`findtext("{*}summary")`, and the `<link>` elements.  `findtext` yields
`none` when the element is absent. -/
structure Entry where
  full_id : Option (List Char)
  title : Option (List Char)
  published : Option (List Char)
  authors : List (Option (List Char))
  summary : Option (List Char)
  links : List Link
deriving DecidableEq

/-- The paper dictionary built for each entry. -/
structure PaperRecord where
  arxiv_id : Option (List Char)
  title : Option (List Char)
  authors : List (Option (List Char))
  published : Option (List Char)
  pdf_link : Option (List Char)
deriving DecidableEq

/-- The `type` attribute value selecting the PDF link. -/
def pdfType : List Char := ("application/pdf").data

/-- The per-entry body of the parsing loop shared by all fetch variants:
`arxiv_id = full_id.split("/")[-1] if full_id else None` (note that Python
treats the empty string as falsy), the title/published/author texts, and
`pdf_link = next((l.get("href") for l in links if l.get("type") ==
"application/pdf"), None)`. -/
def parseEntry (e : Entry) : PaperRecord :=
  { arxiv_id :=
      match e.full_id with
      | some s => if s = [] then none else some (lastField s)
      | none => none
    title := e.title
    authors := e.authors
    published := e.published
    pdf_link :=
      (e.links.find? (fun l => decide (l.linkType = some pdfType))).bind Link.href }

/-- A side effect a tool call performs on the outside world. -/
inductive Effect where
  | netCall (url : List Char)
  | makeDirs (path : List Char)
  | fileWrite (path : List Char) (text : List Char)
deriving DecidableEq

/-- The envelope of `fetch_arxiv_papers` in the server variant
(`status`, `data` list of papers, `message`). -/
structure FetchResult where
  status : String
  data : List PaperRecord
  message : String
deriving DecidableEq

/-- The envelope of `get_arxiv_abstract` in the server variant. -/
structure AbstractResult where
  status : String
  data : Option (List Char)
  message : String
deriving DecidableEq

/-- The envelope of `save_md_to_file` in the server variant. -/
structure SaveResult where
  status : String
  data : Option (List Char)
  message : String
deriving DecidableEq

/-- The search URL built from the topic and requested count:
`http://export.arxiv.org/api/query?search_query=all:{topic}&start=0&max_results={n}&sortBy=submittedDate&sortOrder=descending`. -/
def queryUrl (topic : List Char) (n : Int) : List Char :=
  ("http://export.arxiv.org/api/query?search_query=all:").data ++ topic ++
  ("&start=0&max_results=").data ++ (toString n).data ++
  ("&sortBy=submittedDate&sortOrder=descending").data

/-- The single-identifier lookup URL:
`http://export.arxiv.org/api/query?id_list={arxiv_id}`. -/
def idListUrl (arxiv_id : List Char) : List Char :=
  ("http://export.arxiv.org/api/query?id_list=").data ++ arxiv_id

/-- The fixed output directory `./reports`. -/
def reportsDir : List Char := ("./reports").data

/-- `os.path.join("./reports", name)` with POSIX semantics: a second
component starting with `'/'` replaces the first, otherwise the components
are joined with a single `'/'`. -/
def pathJoin (a b : List Char) : List Char :=
  if b.headD ' ' = '/' then b else a ++ '/' :: b

namespace Server

/-- `fetch_arxiv_papers` of `4_mcp_server.py`.  The network fetch plus XML
parse (`urllib.request.urlopen`, `ET.fromstring`, `findall(".//{*}entry")`)
is the explicit argument `net`: `Except.ok entries` is a parsed feed,
`Except.error e` an exception raised by the network or parse step, caught by
the surrounding `try` and rendered as `f"An error occurred: {e}"`.  The
second component is the trace of performed side effects. -/
def fetch_arxiv_papers (topic : List Char) (number_of_papers : Int)
    (net : Except String (List Entry)) : FetchResult × List Effect :=
  if topic = [] then
    ({ status := "error", data := [], message := "Invalid topic provided." }, [])
  else if number_of_papers ≤ 0 then
    ({ status := "error", data := [], message := "Invalid number_of_papers provided." }, [])
  else
    let url := queryUrl topic number_of_papers
    match net with
    | Except.error e =>
        ({ status := "error", data := [],
           message := "An error occurred: " ++ e }, [Effect.netCall url])
    | Except.ok entries =>
        let papers := entries.map parseEntry
        ({ status := "success", data := papers,
           message := "Fetched " ++ toString papers.length ++ " papers successfully." },
         [Effect.netCall url])

/-- `get_arxiv_abstract` of `4_mcp_server.py`.  `root.find(".//{*}entry")`
is the head of the parsed entry list. -/
def get_arxiv_abstract (arxiv_id : List Char)
    (net : Except String (List Entry)) : AbstractResult × List Effect :=
  if arxiv_id = [] then
    ({ status := "error", data := none, message := "Invalid arXiv ID provided." }, [])
  else
    let url := idListUrl arxiv_id
    match net with
    | Except.error e =>
        ({ status := "error", data := none,
           message := "An error occurred: " ++ e }, [Effect.netCall url])
    | Except.ok entries =>
        match entries.head? with
        | some entry =>
            ({ status := "success", data := entry.summary,
               message := "Abstract fetched successfully." }, [Effect.netCall url])
        | none =>
            ({ status := "error", data := none, message := "Paper not found." },
             [Effect.netCall url])

/-- `save_md_to_file` of `4_mcp_server.py`.  The filesystem primitives
`os.makedirs("./reports", exist_ok=True)` and the `open`/`write` pair are
the explicit arguments `mkdirs` and `write`; an `Except.error` is an
exception raised by that primitive, caught by the surrounding `try`.  An
effect is traced when the primitive succeeds. -/
def save_md_to_file (text filename : List Char)
    (mkdirs write : Except String Unit) : SaveResult × List Effect :=
  if text = [] then
    ({ status := "error", data := none, message := "Invalid text provided." }, [])
  else if filename = [] then
    ({ status := "error", data := none, message := "Invalid filename provided." }, [])
  else
    match mkdirs with
    | Except.error e =>
        ({ status := "error", data := none, message := "An error occurred: " ++ e }, [])
    | Except.ok _ =>
        let filepath := pathJoin reportsDir (sanitize filename)
        match write with
        | Except.error e =>
            ({ status := "error", data := none,
               message := "An error occurred: " ++ e }, [Effect.makeDirs reportsDir])
        | Except.ok _ =>
            ({ status := "success", data := some filepath,
               message := "File saved successfully." },
             [Effect.makeDirs reportsDir, Effect.fileWrite filepath text])

end Server

/-- What a call of the plain-script `save_md_to_file` did: the exception
that escaped it (if any), the filesystem effects performed, and the
messages printed by its `try`/`except`. -/
structure PlainSaveOutcome where
  uncaught : Option String
  effects : List Effect
  logs : List String
deriving DecidableEq

namespace AgentV2

/-- `save_md_to_file` of `3_gemini_agent_with_tools_v2.py`.  Here
`os.makedirs("./reports", exist_ok=True)` runs before the `try` block, so an
exception it raises escapes the function; only the `open`/`write` pair is
inside the `try`, whose `except` prints `f"Error saving file: {e}"` and
returns normally. -/
def save_md_to_file (text filename : List Char)
    (mkdirs write : Except String Unit) : PlainSaveOutcome :=
  match mkdirs with
  | Except.error e => { uncaught := some e, effects := [], logs := [] }
  | Except.ok _ =>
      let filepath := pathJoin reportsDir (sanitize filename)
      match write with
      | Except.error e =>
          { uncaught := none, effects := [Effect.makeDirs reportsDir],
            logs := ["Error saving file: " ++ e] }
      | Except.ok _ =>
          { uncaught := none,
            effects := [Effect.makeDirs reportsDir, Effect.fileWrite filepath text],
            logs := [] }

end AgentV2

/-- Python `s.lower()` as applied to the user input (`Char.toLower` per
character). -/
def lower (s : List Char) : List Char := s.map Char.toLower

/-- The `"exit"` sentinel of both interactive loops. -/
def exitWord : List Char := ("exit").data

namespace McpGeminiAgent

/-- The `while True` loop of `main` in `6_mcp_gemini_agent.py`, driven by
the (finite) stream of user input lines and by `turn`, the behaviour of
`chat.send_message` on one input (`Except.error e` models an exception
raised while producing that turn).  The result is the list of lines printed
for the user and the exception that escaped the loop, if any: in this
variant `send_message` is not wrapped in `try`/`except`, so a turn failure
ends the loop. -/
def mainLoop (turn : List Char → Except String String) :
    List (List Char) → List String × Option String
  | [] => ([], none)
  | i :: rest =>
      if lower i = exitWord then (["Exiting the chat. Goodbye!"], none)
      else
        match turn i with
        | Except.error e => ([], some e)
        | Except.ok r =>
            let next := mainLoop turn rest
            (("Gemini:  " ++ r) :: next.1, next.2)

end McpGeminiAgent

namespace McpDockerGeminiAgent

/-- The `while True` loop of `main` in `9_mcp_docker_gemini_agent.py`: the
same cycle, but `chat.send_message` sits in a `try`/`except` whose handler
prints `f"Sorry, I encountered an error processing your message: {e}"` and
continues with the next input. -/
def mainLoop (turn : List Char → Except String String) :
    List (List Char) → List String × Option String
  | [] => ([], none)
  | i :: rest =>
      if lower i = exitWord then (["Exiting the chat. Goodbye!"], none)
      else
        match turn i with
        | Except.error e =>
            let next := mainLoop turn rest
            (("Sorry, I encountered an error processing your message: " ++ e) :: next.1,
             next.2)
        | Except.ok r =>
            let next := mainLoop turn rest
            (("Gemini:  " ++ r) :: next.1, next.2)

end McpDockerGeminiAgent

/-- Lexicographic comparison of two character lists, the order under which
ISO-8601 timestamps of equal format compare chronologically. -/
def lexLe : List Char → List Char → Bool
  | [], _ => true
  | _ :: _, [] => false
  | a :: as, b :: bs => if a = b then lexLe as bs else decide (a < b)

/-- `a` is a publication date at least as recent as `b` (both present). -/
def pubGe (a b : Option (List Char)) : Bool :=
  match a, b with
  | some x, some y => lexLe y x
  | _, _ => false

theorem sanitize_no_slash (s : List Char) : '/' ∉ sanitize s := by
  intro h
  have := sanitize_no_reserved s '/' h
  simp [reservedChar] at this

theorem sanitize_no_backslash (s : List Char) : '\\' ∉ sanitize s := by
  intro h
  have := sanitize_no_reserved s '\\' h
  simp [reservedChar] at this

theorem pathJoin_reportsDir_sanitize (s : List Char) :
    pathJoin reportsDir (sanitize s) = reportsDir ++ '/' :: sanitize s := by
  unfold pathJoin
  rw [if_neg]
  intro h
  cases hs : sanitize s with
  | nil => rw [hs] at h; exact absurd h (by decide)
  | cons c cs =>
      rw [hs] at h
      simp only [List.headD_cons] at h
      exact sanitize_no_slash s (hs ▸ (h ▸ List.mem_cons_self c cs))

/-- C3: filename sanitization is idempotent, its result never contains a
reserved character from `<>:"/\|?*`, and it always ends in `.md`. -/
theorem claim_sanitize_idempotent (s : List Char) :
    sanitize (sanitize s) = sanitize s
    ∧ (∀ c ∈ sanitize s, reservedChar c = false)
    ∧ mdSuffix <:+ sanitize s :=
  ⟨sanitize_idem s, sanitize_no_reserved s, sanitize_endsWith_md s⟩

theorem claim_sanitize_idempotent_witness :
    sanitize (sanitize ("My: Report").data) = sanitize ("My: Report").data
    ∧ reservedChar '-' = false
    ∧ mdSuffix <:+ sanitize ("My: Report").data := by
  have h := claim_sanitize_idempotent (("My: Report").data)
  exact ⟨h.1, h.2.1 '-' (by decide), h.2.2⟩

/-- C7: for every feed entry with a non-empty canonical id URL, the parsed
record's identifier is the final path segment of that URL — the part after
the last `'/'`: it contains no `'/'`, is a suffix of the URL, and contains
every slash-free suffix of the URL. -/
theorem claim_identifier_last_segment (e : Entry) (s : List Char)
    (hid : e.full_id = some s) (hne : s ≠ []) :
    (parseEntry e).arxiv_id = some (lastField s)
    ∧ '/' ∉ lastField s
    ∧ lastField s <:+ s
    ∧ ∀ t, t <:+ s → '/' ∉ t → t <:+ lastField s := by
  refine ⟨?_, lastField_no_slash s, lastField_suffix s, lastField_maximal s⟩
  simp [parseEntry, hid, hne]

/-- A fixture entry whose canonical URL ends in `/abs/2301.12345`. -/
def exampleEntry : Entry :=
  { full_id := some (("http://arxiv.org/abs/2301.12345").data)
    title := some (("A Paper").data)
    published := some (("2023-01-30T00:00:00Z").data)
    authors := []
    summary := none
    links := [] }

theorem claim_identifier_last_segment_witness :
    (parseEntry exampleEntry).arxiv_id = some (("2301.12345").data) := by
  have h := claim_identifier_last_segment exampleEntry
    (("http://arxiv.org/abs/2301.12345").data) rfl (by decide)
  rw [h.1]
  decide

/-- Fixture entry published 2025-01-01. -/
def entryJan01 : Entry :=
  { full_id := some (("http://arxiv.org/abs/2501.00001").data)
    title := some (("Paper One").data)
    published := some (("2025-01-01T00:00:00Z").data)
    authors := []
    summary := none
    links := [] }

/-- Fixture entry published 2025-01-02. -/
def entryJan02 : Entry :=
  { full_id := some (("http://arxiv.org/abs/2501.00002").data)
    title := some (("Paper Two").data)
    published := some (("2025-01-02T00:00:00Z").data)
    authors := []
    summary := none
    links := [] }

/-- Fixture entry published 2025-01-03. -/
def entryJan03 : Entry :=
  { full_id := some (("http://arxiv.org/abs/2501.00003").data)
    title := some (("Paper Three").data)
    published := some (("2025-01-03T00:00:00Z").data)
    authors := []
    summary := none
    links := [] }

/-- C1 as stated is false: the code never truncates the parsed feed to the
requested count, and never reorders it.  A feed response carrying two
entries in ascending date order against a request for one paper yields two
records, in ascending order. -/
theorem claim_fetch_bound_counterexample :
    ¬ ((((Server.fetch_arxiv_papers (("mcp").data) 1
            (Except.ok [entryJan01, entryJan02])).1.data.length : Int) ≤ 1)
       ∧ List.Pairwise (fun a b => pubGe a.published b.published = true)
           (Server.fetch_arxiv_papers (("mcp").data) 1
             (Except.ok [entryJan01, entryJan02])).1.data) :=
  fun h => absurd h.1 (by decide)

/-- C1 amended: whenever the feed response respects what the constructed
query asks of the remote source — at most `n` entries
(`max_results={n}`), ordered by non-increasing publication date
(`sortBy=submittedDate&sortOrder=descending`) — `fetch_arxiv_papers`
returns at most `n` records, ordered by non-increasing publication date,
and (for a valid topic) exactly the parsed feed in feed order. -/
theorem claim_fetch_bound_and_order (topic : List Char) (n : Int)
    (entries : List Entry) (hn : 0 < n)
    (hlen : (entries.length : Int) ≤ n)
    (hsorted : List.Pairwise (fun a b => pubGe a.published b.published = true) entries) :
    (((Server.fetch_arxiv_papers topic n (Except.ok entries)).1.data.length : Int) ≤ n)
    ∧ List.Pairwise (fun a b => pubGe a.published b.published = true)
        (Server.fetch_arxiv_papers topic n (Except.ok entries)).1.data
    ∧ (topic ≠ [] →
        (Server.fetch_arxiv_papers topic n (Except.ok entries)).1.data
          = entries.map parseEntry) := by
  by_cases ht : topic = []
  · simp only [Server.fetch_arxiv_papers, if_pos ht]
    exact ⟨by simpa using hn.le, List.Pairwise.nil, fun h => absurd ht h⟩
  · have hnle : ¬ n ≤ 0 := not_le.mpr hn
    simp only [Server.fetch_arxiv_papers, if_neg ht, if_neg hnle]
    refine ⟨?_, ?_, fun _ => by trivial⟩
    · simpa [List.length_map] using hlen
    · exact List.Pairwise.map parseEntry (fun a b h => h) hsorted

theorem claim_fetch_bound_and_order_witness :
    (((Server.fetch_arxiv_papers (("MCP").data) 3
        (Except.ok [entryJan03, entryJan02, entryJan01])).1.data.length : Int) ≤ 3)
    ∧ List.Pairwise (fun a b => pubGe a.published b.published = true)
        (Server.fetch_arxiv_papers (("MCP").data) 3
          (Except.ok [entryJan03, entryJan02, entryJan01])).1.data
    ∧ (Server.fetch_arxiv_papers (("MCP").data) 3
          (Except.ok [entryJan03, entryJan02, entryJan01])).1.data
        = [entryJan03, entryJan02, entryJan01].map parseEntry := by
  have h := claim_fetch_bound_and_order (("MCP").data) 3
    [entryJan03, entryJan02, entryJan01] (by decide) (by decide) (by decide)
  exact ⟨h.1, h.2.1, h.2.2 (by decide)⟩

/-- C10: for a valid topic and positive count, an empty feed response
yields a success envelope with an empty list and the message
`Fetched 0 papers successfully.`. -/
theorem claim_empty_feed_success (topic : List Char) (n : Int)
    (ht : topic ≠ []) (hn : 0 < n) :
    (Server.fetch_arxiv_papers topic n (Except.ok [])).1
      = { status := "success", data := [],
          message := "Fetched 0 papers successfully." } := by
  have hnle : ¬ n ≤ 0 := not_le.mpr hn
  simp only [Server.fetch_arxiv_papers, if_neg ht, if_neg hnle]
  decide

theorem claim_empty_feed_success_witness :
    (Server.fetch_arxiv_papers (("mcp").data) 3 (Except.ok [])).1
      = { status := "success", data := [],
          message := "Fetched 0 papers successfully." } :=
  claim_empty_feed_success (("mcp").data) 3 (by decide) (by decide)

/-- C2: in the server variant, an invalid input — empty topic,
non-positive count, empty identifier, empty text, empty filename — makes
each tool return an error envelope with an empty effect trace: no network
call is issued, no directory is created, no file is written. -/
theorem claim_invalid_inputs_rejected :
    (∀ (topic : List Char) (n : Int) (net : Except String (List Entry)),
        topic = [] ∨ n ≤ 0 →
        (Server.fetch_arxiv_papers topic n net).1.status = "error"
        ∧ (Server.fetch_arxiv_papers topic n net).2 = [])
    ∧ (∀ net : Except String (List Entry),
        (Server.get_arxiv_abstract [] net).1.status = "error"
        ∧ (Server.get_arxiv_abstract [] net).2 = [])
    ∧ (∀ (text filename : List Char) (mkdirs fwrite : Except String Unit),
        text = [] ∨ filename = [] →
        (Server.save_md_to_file text filename mkdirs fwrite).1.status = "error"
        ∧ (Server.save_md_to_file text filename mkdirs fwrite).2 = []) := by
  refine ⟨?_, ?_, ?_⟩
  · intro topic n net h
    rcases h with h | h
    · simp [Server.fetch_arxiv_papers, h]
    · by_cases ht : topic = []
      · simp [Server.fetch_arxiv_papers, ht]
      · simp [Server.fetch_arxiv_papers, ht, h]
  · intro net
    simp [Server.get_arxiv_abstract]
  · intro text filename mkdirs fwrite h
    rcases h with h | h
    · simp [Server.save_md_to_file, h]
    · by_cases htx : text = []
      · simp [Server.save_md_to_file, htx]
      · simp [Server.save_md_to_file, htx, h]

theorem claim_invalid_inputs_rejected_witness :
    ((Server.fetch_arxiv_papers [] 3 (Except.ok [])).1.status = "error"
      ∧ (Server.fetch_arxiv_papers [] 3 (Except.ok [])).2 = [])
    ∧ ((Server.fetch_arxiv_papers (("mcp").data) 0 (Except.ok [])).1.status = "error"
      ∧ (Server.fetch_arxiv_papers (("mcp").data) 0 (Except.ok [])).2 = [])
    ∧ ((Server.get_arxiv_abstract [] (Except.ok [])).1.status = "error"
      ∧ (Server.get_arxiv_abstract [] (Except.ok [])).2 = [])
    ∧ ((Server.save_md_to_file [] (("a").data) (Except.ok ()) (Except.ok ())).1.status = "error"
      ∧ (Server.save_md_to_file [] (("a").data) (Except.ok ()) (Except.ok ())).2 = [])
    ∧ ((Server.save_md_to_file (("x").data) [] (Except.ok ()) (Except.ok ())).1.status = "error"
      ∧ (Server.save_md_to_file (("x").data) [] (Except.ok ()) (Except.ok ())).2 = []) :=
  ⟨claim_invalid_inputs_rejected.1 [] 3 (Except.ok []) (Or.inl rfl),
   claim_invalid_inputs_rejected.1 (("mcp").data) 0 (Except.ok []) (Or.inr (by decide)),
   claim_invalid_inputs_rejected.2.1 (Except.ok []),
   claim_invalid_inputs_rejected.2.2 [] (("a").data) (Except.ok ()) (Except.ok ()) (Or.inl rfl),
   claim_invalid_inputs_rejected.2.2 (("x").data) [] (Except.ok ()) (Except.ok ()) (Or.inr rfl)⟩

/-- C4: the server tools are total functions into the envelope type — no
exception crosses the tool boundary — and an operational failure of the
network/parse step or of a filesystem primitive yields an envelope with
status `error`; every envelope's status is `success` or `error`. -/
theorem claim_server_tools_no_raise :
    (∀ (topic : List Char) (n : Int) (e : String),
        (Server.fetch_arxiv_papers topic n (Except.error e)).1.status = "error")
    ∧ (∀ (arxiv_id : List Char) (e : String),
        (Server.get_arxiv_abstract arxiv_id (Except.error e)).1.status = "error")
    ∧ (∀ (text filename : List Char) (e : String) (fwrite : Except String Unit),
        (Server.save_md_to_file text filename (Except.error e) fwrite).1.status = "error")
    ∧ (∀ (text filename : List Char) (e : String),
        (Server.save_md_to_file text filename (Except.ok ()) (Except.error e)).1.status = "error")
    ∧ (∀ (topic : List Char) (n : Int) (net : Except String (List Entry)),
        (Server.fetch_arxiv_papers topic n net).1.status = "success"
        ∨ (Server.fetch_arxiv_papers topic n net).1.status = "error")
    ∧ (∀ (arxiv_id : List Char) (net : Except String (List Entry)),
        (Server.get_arxiv_abstract arxiv_id net).1.status = "success"
        ∨ (Server.get_arxiv_abstract arxiv_id net).1.status = "error")
    ∧ (∀ (text filename : List Char) (mkdirs fwrite : Except String Unit),
        (Server.save_md_to_file text filename mkdirs fwrite).1.status = "success"
        ∨ (Server.save_md_to_file text filename mkdirs fwrite).1.status = "error") := by
  refine ⟨?_, ?_, ?_, ?_, ?_, ?_, ?_⟩
  · intro topic n e
    unfold Server.fetch_arxiv_papers
    split
    · rfl
    · split <;> rfl
  · intro arxiv_id e
    unfold Server.get_arxiv_abstract
    split <;> rfl
  · intro text filename e fwrite
    unfold Server.save_md_to_file
    split
    · rfl
    · split <;> rfl
  · intro text filename e
    unfold Server.save_md_to_file
    split
    · rfl
    · split <;> rfl
  · intro topic n net
    unfold Server.fetch_arxiv_papers
    rcases net with e | entries
    · split
      · exact Or.inr rfl
      · split <;> [exact Or.inr rfl; exact Or.inr rfl]
    · split
      · exact Or.inr rfl
      · split <;> [exact Or.inr rfl; exact Or.inl rfl]
  · intro arxiv_id net
    unfold Server.get_arxiv_abstract
    rcases net with e | entries
    · split <;> [exact Or.inr rfl; exact Or.inr rfl]
    · split
      · exact Or.inr rfl
      · rcases entries with _ | ⟨entry, rest⟩
        · exact Or.inr rfl
        · exact Or.inl rfl
  · intro text filename mkdirs fwrite
    unfold Server.save_md_to_file
    rcases mkdirs with e | u
    · split
      · exact Or.inr rfl
      · split <;> [exact Or.inr rfl; exact Or.inr rfl]
    · rcases fwrite with e2 | u2
      · split
        · exact Or.inr rfl
        · split <;> [exact Or.inr rfl; exact Or.inr rfl]
      · split
        · exact Or.inr rfl
        · split <;> [exact Or.inr rfl; exact Or.inl rfl]

/-- C8: for a non-empty identifier, `get_arxiv_abstract` returns a success
envelope carrying the summary text of the first entry of the response when
one exists, and the envelope `{error, none, "Paper not found."}` when the
response has no entry. -/
theorem claim_abstract_first_or_not_found (arxiv_id : List Char)
    (h : arxiv_id ≠ []) :
    (∀ (entry : Entry) (rest : List Entry),
        (Server.get_arxiv_abstract arxiv_id (Except.ok (entry :: rest))).1
          = { status := "success", data := entry.summary,
              message := "Abstract fetched successfully." })
    ∧ (Server.get_arxiv_abstract arxiv_id (Except.ok [])).1
        = { status := "error", data := none, message := "Paper not found." } := by
  constructor
  · intro entry rest
    simp [Server.get_arxiv_abstract, h]
  · simp [Server.get_arxiv_abstract, h]

/-- A fixture entry carrying a summary. -/
def entryWithSummary : Entry :=
  { full_id := some (("http://arxiv.org/abs/2301.12345").data)
    title := none
    published := none
    authors := []
    summary := some (("An abstract.").data)
    links := [] }

theorem claim_abstract_first_or_not_found_witness :
    (Server.get_arxiv_abstract (("2301.12345").data) (Except.ok [entryWithSummary])).1
      = { status := "success", data := some (("An abstract.").data),
          message := "Abstract fetched successfully." }
    ∧ (Server.get_arxiv_abstract (("2301.12345").data) (Except.ok [])).1
      = { status := "error", data := none, message := "Paper not found." } := by
  have h := claim_abstract_first_or_not_found (("2301.12345").data) (by decide)
  exact ⟨h.1 entryWithSummary [], h.2⟩

/-- C9: every file write performed by the server `save_md_to_file` targets
the fixed directory `./reports` joined with the single path component
`sanitize filename`, which contains neither `'/'` nor `'\'`; on success the
returned path is that same joined path. -/
theorem claim_save_confined_to_reports :
    (∀ (text filename : List Char) (mkdirs fwrite : Except String Unit)
        (p t : List Char),
        Effect.fileWrite p t ∈ (Server.save_md_to_file text filename mkdirs fwrite).2 →
        p = reportsDir ++ '/' :: sanitize filename
        ∧ '/' ∉ sanitize filename
        ∧ '\\' ∉ sanitize filename)
    ∧ (∀ (text filename : List Char),
        text ≠ [] → filename ≠ [] →
        (Server.save_md_to_file text filename (Except.ok ()) (Except.ok ())).1.data
          = some (reportsDir ++ '/' :: sanitize filename)) := by
  constructor
  · intro text filename mkdirs fwrite p t hmem
    by_cases htx : text = []
    · simp [Server.save_md_to_file, htx] at hmem
    · by_cases hfn : filename = []
      · simp [Server.save_md_to_file, htx, hfn] at hmem
      · rcases mkdirs with e | u
        · simp [Server.save_md_to_file, htx, hfn] at hmem
        · rcases fwrite with e2 | u2
          · simp [Server.save_md_to_file, htx, hfn] at hmem
          · simp [Server.save_md_to_file, htx, hfn] at hmem
            refine ⟨?_, sanitize_no_slash filename, sanitize_no_backslash filename⟩
            rw [hmem.1, pathJoin_reportsDir_sanitize]
  · intro text filename htx hfn
    simp [Server.save_md_to_file, htx, hfn, pathJoin_reportsDir_sanitize]

theorem claim_save_confined_to_reports_witness :
    ((("./reports/a.md").data) = reportsDir ++ '/' :: sanitize (("a").data)
      ∧ '/' ∉ sanitize (("a").data)
      ∧ '\\' ∉ sanitize (("a").data))
    ∧ (Server.save_md_to_file (("x").data) (("a").data) (Except.ok ()) (Except.ok ())).1.data
        = some (reportsDir ++ '/' :: sanitize (("a").data)) := by
  constructor
  · exact claim_save_confined_to_reports.1 (("x").data) (("a").data)
      (Except.ok ()) (Except.ok ()) (("./reports/a.md").data) (("x").data) (by decide)
  · exact claim_save_confined_to_reports.2 (("x").data) (("a").data)
      (by decide) (by decide)

/-- C5 as stated is false for the local agent (`6_mcp_gemini_agent.py`):
its loop has no `try`/`except` around the turn, so a turn failure on the
first input escapes the loop — nothing is reported and the second input is
never processed. -/
theorem claim_loop_error_counterexample :
    ¬ ((McpGeminiAgent.mainLoop (fun _ => Except.error "boom")
          [("hi").data, ("bye").data]).2 = none) := by decide

/-- C5 amended: the claim holds for the Docker/HTTP agent
(`9_mcp_docker_gemini_agent.py`): its loop never lets a turn exception
escape, and a failing non-sentinel turn prints the error report and
continues with the remaining inputs; in the local agent
(`6_mcp_gemini_agent.py`) a turn exception instead escapes and ends the
loop. -/
theorem claim_docker_loop_survives_turn_errors :
    (∀ (turn : List Char → Except String String) (inputs : List (List Char)),
        (McpDockerGeminiAgent.mainLoop turn inputs).2 = none)
    ∧ (∀ (turn : List Char → Except String String) (i : List Char)
        (rest : List (List Char)) (e : String),
        lower i ≠ exitWord → turn i = Except.error e →
        McpDockerGeminiAgent.mainLoop turn (i :: rest)
          = (("Sorry, I encountered an error processing your message: " ++ e)
               :: (McpDockerGeminiAgent.mainLoop turn rest).1,
             (McpDockerGeminiAgent.mainLoop turn rest).2)) := by
  constructor
  · intro turn inputs
    induction inputs with
    | nil => rfl
    | cons i rest ih =>
        simp only [McpDockerGeminiAgent.mainLoop]
        split
        · rfl
        · cases hturn : turn i <;> simpa [hturn] using ih
  · intro turn i rest e hne herr
    simp only [McpDockerGeminiAgent.mainLoop, if_neg hne, herr]

theorem claim_docker_loop_survives_turn_errors_witness :
    (McpDockerGeminiAgent.mainLoop (fun _ => Except.error "boom")
        [("hi").data]).2 = none
    ∧ McpDockerGeminiAgent.mainLoop (fun _ => Except.error "boom")
        [("hi").data]
      = (["Sorry, I encountered an error processing your message: boom"], none) := by
  have h1 := claim_docker_loop_survives_turn_errors.1
    (fun _ => Except.error "boom") [("hi").data]
  have h2 := claim_docker_loop_survives_turn_errors.2
    (fun _ => Except.error "boom") (("hi").data) [] "boom" (by decide) rfl
  refine ⟨h1, ?_⟩
  rw [h2]
  decide

/-- C6 as stated is false: in the plain-script `save_md_to_file`
(`3_gemini_agent_with_tools_v2.py`), `os.makedirs` runs before the `try`
block, so a failure while creating the reports directory escapes the
function instead of being caught. -/
theorem claim_plain_save_failure_counterexample :
    ¬ ((AgentV2.save_md_to_file (("# Report").data) (("r").data)
          (Except.error "makedirs failed") (Except.ok ())).uncaught = none) := by
  decide

/-- C6 amended: a failure of the file-write step in the plain-script
`save_md_to_file` is caught and logged as `Error saving file: {e}`, and the
function returns normally with no file written (only the directory-creation
effect remains); a failure of the directory-creation step itself instead
propagates uncaught. -/
theorem claim_plain_save_write_failure_caught (text filename : List Char)
    (e : String) :
    AgentV2.save_md_to_file text filename (Except.ok ()) (Except.error e)
      = { uncaught := none, effects := [Effect.makeDirs reportsDir],
          logs := ["Error saving file: " ++ e] } := rfl

end ArxivTools
